import Mathlib

set_option maxRecDepth 8000

/-!
Verification development for the Twilio / Nova Sonic voice-bridge repository.

Each section shallowly embeds one component of the source:
* `Vad`    — `audio_processor.py` (`AudioProcessor.process_incoming`, `_reduce_noise`)
* `BpQueue` — `optimized_websocket.py` (`_nova_receiver` queueing discipline)
* `Codec`  — `utils.py` (`ulaw_b64_to_pcm16_bytes`, `pcm16_bytes_to_ulaw_b64`)
* `Sonic`  — `bedrock_service.py` (`SonicSession`)
* `Nova`   — `nova_sonic_streaming.py` (`NovaSonicStreamingSession`)
* `Orch`   — `websocket_service.py` (`handle_websocket`)

Machine integers are modelled as `Nat`/`Int`; `uuid.uuid4()` is modelled as a
monotone supply counter (each draw yields a value never produced before);
Python exceptions are modelled as explicit flags or `Except`/`Option` results.
-/

namespace Vad

/-- VAD constants from `audio_processor.py` (lines 15-26).
`SAMPLE_RATE = 8000`, `FRAME_DURATION_MS = 20`; the two hysteresis bounds
are computed with Python `int()` truncation, which `Nat` division models. -/
def FRAME_DURATION_MS : Nat := 20

def VAD_MIN_SPEECH_MS : Nat := 250

def VAD_MIN_SILENCE_MS : Nat := 700

/-- Constant `SPEECH_FRAMES_THRESHOLD = int(VAD_MIN_SPEECH_MS / FRAME_DURATION_MS)`:
`int(250 / 20) = int(12.5) = 12`. -/
def SPEECH_FRAMES_THRESHOLD : Nat := VAD_MIN_SPEECH_MS / FRAME_DURATION_MS

/-- Constant `SILENCE_FRAMES_THRESHOLD = int(VAD_MIN_SILENCE_MS / FRAME_DURATION_MS)` = 35. -/
def SILENCE_FRAMES_THRESHOLD : Nat := VAD_MIN_SILENCE_MS / FRAME_DURATION_MS

/-- Constant `VAD_THRESHOLD = 0.5`, modelled exactly as the rational 1/2. -/
def VAD_THRESHOLD : ℚ := 1 / 2

/-- Mutable VAD fields of `AudioProcessor` (`speech_frames`, `silence_frames`,
`is_speaking`). -/
structure ApState where
  speech_frames : Nat
  silence_frames : Nat
  is_speaking : Bool
deriving DecidableEq, Repr

/-- Constructor state of `AudioProcessor.__init__`. -/
def apInit : ApState := ⟨0, 0, false⟩

/-- The speech-state update of `AudioProcessor.process_incoming`
(`audio_processor.py` lines 133-148), for one frame whose VAD confidence is
`conf`.  The source guards the assignments with `if not self.is_speaking` /
`if self.is_speaking`, which only suppresses a duplicate log line; the
resulting field value is the same. -/
def vadStep (s : ApState) (conf : ℚ) : ApState :=
  if VAD_THRESHOLD < conf then
    let sf := s.speech_frames + 1
    { speech_frames := sf
      silence_frames := 0
      is_speaking := if SPEECH_FRAMES_THRESHOLD ≤ sf then true else s.is_speaking }
  else
    let sl := s.silence_frames + 1
    { speech_frames := 0
      silence_frames := sl
      is_speaking := if SILENCE_FRAMES_THRESHOLD ≤ sl then false else s.is_speaking }

/-- The amplitude noise gate of `AudioProcessor._reduce_noise` applied to one
16-bit sample `x`: the source computes `audio_float = x / 32768.0`, keeps the
sample when `abs(audio_float) > noise_gate_threshold` (0.02) and zeroes it
otherwise, then converts back (`x / 32768 * 32768 = x` exactly in float32 for
16-bit integers).  The comparison `abs x / 32768 > 0.02` over the reals is
`100 * abs x > 65536`; the float32 evaluation the source performs decides the
same predicate at every 16-bit integer point (the boundary sits between 655
and 656 either way). -/
def noiseGate (x : Int) : Int :=
  if 65536 < 100 * x.natAbs then x else 0

/-- Function `AudioProcessor._reduce_noise` on a frame of 16-bit samples. -/
def reduce_noise (frame : List Int) : List Int :=
  frame.map noiseGate

/-- One complete-frame step of `AudioProcessor.process_incoming`
(lines 129-161): run the VAD update for the frame's confidence `conf`
(the source obtains `conf` as `self.vad.is_speech(frame)`; the claims
quantify over it), then either noise-gate and forward the frame or
suppress it, depending on the updated `is_speaking`. -/
def process_incoming (s : ApState) (frame : List Int) (conf : ℚ) :
    ApState × Option (List Int) :=
  let s := vadStep s conf
  if s.is_speaking then (s, some (reduce_noise frame)) else (s, none)

/-- Folding the VAD update over a list of per-frame confidences. -/
def vadRun (s : ApState) (confs : List ℚ) : ApState :=
  confs.foldl vadStep s

end Vad
namespace BpQueue

/-- Constructor `OptimizedWebSocketHandler.__init__` (`optimized_websocket.py` line 46)
creates `asyncio.Queue(maxsize=50)`. -/
def QUEUE_CAPACITY : Nat := 50

/-- The queueing discipline of `_nova_receiver` (`optimized_websocket.py`
lines 238-247): `put_nowait(frame)`; on `asyncio.QueueFull`, `get_nowait()`
removes the oldest entry, then `put_nowait(frame)` succeeds.  The queue is
FIFO, so the list head is the oldest entry. -/
def evictPush (q : List α) (x : α) : List α :=
  if q.length < QUEUE_CAPACITY then q ++ [x] else q.drop 1 ++ [x]

/-- A burst of frames pushed through `_nova_receiver` in order. -/
def pushAll (q : List α) (xs : List α) : List α :=
  xs.foldl evictPush q

end BpQueue

namespace Codec

/-- The standard base64 alphabet used by `base64.b64encode`/`b64decode`. -/
def b64Alphabet : List Char :=
  "ABCDEFGHIJKLMNOPQRSTUVWXYZabcdefghijklmnopqrstuvwxyz0123456789+/".toList

/-- Index of an alphabet character (only applied to alphabet members). -/
def b64Val (c : Char) : Nat :=
  b64Alphabet.indexOf c

/-- Character for a 6-bit value. -/
def b64Char (n : Nat) : Char :=
  b64Alphabet.getD n 'A'

/-- Model of CPython's non-strict `binascii.a2b_base64` loop (which
`base64.b64decode` with the default `validate=False` calls): data
characters fill a quad whose output bytes are emitted eagerly at positions
two, three and four; characters outside the alphabet are skipped; a `=`
increments the pad counter only when the quad already holds two or three
data characters, and once `quad_pos + pads` reaches four, decoding ends
successfully with the bytes emitted so far; a data character resets the
pad counter.  After the input ends, a partially filled quad is
`binascii.Error` (one leftover character: "number of data characters";
two or three: "Incorrect padding"), modelled as `none`. -/
def b64a2b : List Char → Nat → Nat → Nat → Option (List Nat)
  | [], quad_pos, _, _ => if quad_pos = 0 then some [] else none
  | c :: cs, quad_pos, leftchar, pads =>
      if c = '=' then
        if 2 ≤ quad_pos ∧ 4 ≤ quad_pos + pads + 1 then some []
        else if 2 ≤ quad_pos then b64a2b cs quad_pos leftchar (pads + 1)
        else b64a2b cs quad_pos leftchar pads
      else if c ∈ b64Alphabet then
        let v := b64Val c
        match quad_pos with
        | 0 => b64a2b cs 1 v 0
        | 1 => Option.map (fun r => (leftchar * 4 + v / 16) :: r) (b64a2b cs 2 (v % 16) 0)
        | 2 => Option.map (fun r => (leftchar * 16 + v / 4) :: r) (b64a2b cs 3 (v % 4) 0)
        | _ => Option.map (fun r => (leftchar * 64 + v) :: r) (b64a2b cs 0 0 0)
      else b64a2b cs quad_pos leftchar pads

/-- Model of `base64.b64decode(payload)` with the default
`validate=False`. -/
def b64decode (payload : String) : Option (List Nat) :=
  b64a2b payload.toList 0 0 0

/-- Encode bytes as base64 characters with `=` padding
(`base64.b64encode`). -/
def b64EncodeData : List Nat → List Char
  | b0 :: b1 :: b2 :: rest =>
      b64Char (b0 % 256 / 4) :: b64Char ((b0 % 4) * 16 + b1 % 256 / 16) ::
        b64Char ((b1 % 16) * 4 + b2 % 256 / 64) :: b64Char (b2 % 64) ::
        b64EncodeData rest
  | [b0, b1] =>
      [b64Char (b0 % 256 / 4), b64Char ((b0 % 4) * 16 + b1 % 256 / 16),
       b64Char ((b1 % 16) * 4), '=']
  | [b0] => [b64Char (b0 % 256 / 4), b64Char ((b0 % 4) * 16), '=', '=']
  | [] => []

/-- Model of `base64.b64encode(bytes).decode("ascii")`. -/
def b64encode (bs : List Nat) : String :=
  ⟨b64EncodeData bs⟩

/-- Function `st_ulaw2linear16` from CPython `audioop.c`: one μ-law byte to a signed
16-bit sample.  `u` is the complemented byte; BIAS = 0x84. -/
def st_ulaw2linear16 (b : Nat) : Int :=
  let u := 255 - b % 256
  let t : Int := ((u % 16) * 8 + 0x84) * 2 ^ (u / 16 % 8)
  if 128 ≤ u then 0x84 - t else t - 0x84

/-- Model of `audioop.ulaw2lin(ulaw, 2)`: each μ-law byte expands to one 16-bit
sample, stored as a little-endian byte pair; total for every input. -/
def ulaw2lin (ulaw : List Nat) : List Nat :=
  ulaw.flatMap fun b =>
    let u : Nat := ((st_ulaw2linear16 b) % 65536).toNat
    [u % 256, u / 256]

/-- Function `ulaw_b64_to_pcm16_bytes` (`utils.py` lines 35-44): the body is wrapped
in `try/except Exception`, so any `binascii.Error` from `b64decode` is
swallowed and the function returns `b""`; it never raises.
`audioop.ulaw2lin(_, 2)` is total. -/
def ulaw_b64_to_pcm16_bytes (payload : String) : List Nat :=
  match b64decode payload with
  | some u => ulaw2lin u
  | none => []

end Codec

namespace Proto

/-- The audio output configuration sent with `promptStart`.  The four
`promptStart` call sites (`bedrock_service.py` lines 218-236 and 419-437,
`nova_sonic_streaming.py` lines 172-190 and 368-386) use field-for-field
identical literals, parameterised only by the session's voice. -/
structure AudioOutCfg where
  mediaType : String
  sampleRateHertz : Nat
  sampleSizeBits : Nat
  channelCount : Nat
  voiceId : String
  encoding : String
  audioType : String
deriving DecidableEq, Repr

/-- The literal configuration from the source. -/
def audioOutCfg (voice : String) : AudioOutCfg :=
  ⟨"audio/lpcm", 8000, 16, 1, voice, "base64", "SPEECH"⟩

/-- Events written to the model transport via `_send_event`, tagged by the
single key under `"event"`. -/
inductive Event where
  | sessionStart (maxTokens : Nat)
  | promptStart (promptName : Nat) (cfg : AudioOutCfg)
  | contentStartText (promptName contentName : Nat) (interactive : Bool) (role : String)
  | contentStartAudio (promptName contentName : Nat)
  | textInput (promptName contentName : Nat) (content : String)
  | audioInput (promptName contentName : Nat) (content : String)
  | contentEnd (promptName contentName : Nat) (ty : String)
  | promptEnd (promptName : Nat)
  | sessionEnd
deriving DecidableEq, Repr

/-- Events decoded from the model transport in the receive loops;
`malformed` stands for a chunk whose JSON decoding or key lookup failed. -/
inductive InEvent where
  | audioOutput (content : List Nat)
  | completionEnd
  | textOutput (content : String)
  | inputTranscript (content : String)
  | malformed
deriving DecidableEq, Repr

end Proto

namespace Sonic

/-- Mutable fields of `SonicSession` (`bedrock_service.py` lines 56-63).
`uuid.uuid4()` draws are modelled by the monotone `supply` counter;
`stream` is `true` while the transport stream object is held. -/
structure Session where
  voice_id : String
  stream : Bool
  active : Bool
  prompt_name : Nat
  current_audio_content_name : Option Nat
  session_started : Bool
  supply : Nat
deriving DecidableEq, Repr

/-- Constructor `SonicSession.__init__`: `prompt_name` takes the first supply draw. -/
def mkSession (voice : String) : Session :=
  { voice_id := voice, stream := false, active := false, prompt_name := 0,
    current_audio_content_name := none, session_started := false, supply := 1 }

/-- Method `SonicSession._send_event` (lines 523-536): the event is dropped when
the stream is gone or the session is not active; transport success is
assumed (the claims do not concern transport failures). -/
def send_event (s : Session) (e : Proto.Event) : List Proto.Event :=
  if ¬ s.stream ∨ ¬ s.active then [] else [e]

/-- Method `SonicSession.start` (lines 195-249): opens the stream, marks the
session active, emits `sessionStart`, `promptStart` and the three-part
system message, then sets `session_started`.  Transport success assumed. -/
def start (s : Session) (system_text : String) : Session × List Proto.Event :=
  let s := { s with stream := true, active := true }
  let e1 := send_event s (Proto.Event.sessionStart 512)
  let e2 := send_event s (Proto.Event.promptStart s.prompt_name (Proto.audioOutCfg s.voice_id))
  let text := if system_text = "" then "You are a helpful AI assistant." else system_text
  let cn := s.supply
  let s := { s with supply := s.supply + 1 }
  let e3 := send_event s (Proto.Event.contentStartText s.prompt_name cn false "SYSTEM")
  let e4 := send_event s (Proto.Event.textInput s.prompt_name cn text)
  let e5 := send_event s (Proto.Event.contentEnd s.prompt_name cn "TEXT")
  ({ s with session_started := true }, e1 ++ e2 ++ e3 ++ e4 ++ e5)

/-- Method `SonicSession.start_audio_input` (lines 293-320): refuses before
`session_started`; draws a fresh content name and opens the interactive
user audio block. -/
def start_audio_input (s : Session) : Session × List Proto.Event :=
  if ¬ s.session_started then (s, [])
  else
    let cn := s.supply
    let s := { s with supply := s.supply + 1, current_audio_content_name := some cn }
    (s, send_event s (Proto.Event.contentStartAudio s.prompt_name cn))

/-- One iteration of `SonicSession.recv_loop` (lines 387-463) on a decoded
inbound event: `audioOutput` yields the decoded PCM16, `completionEnd`
rotates the prompt (fresh `prompt_name`, same output configuration) and
reopens the user audio block, other events are informational. -/
def recvStep (s : Session) (e : Proto.InEvent) :
    Session × List Proto.Event × List (List Nat) :=
  match e with
  | Proto.InEvent.audioOutput c => (s, [], [c])
  | Proto.InEvent.completionEnd =>
      let pn := s.supply
      let s := { s with supply := s.supply + 1, prompt_name := pn }
      let e1 := send_event s (Proto.Event.promptStart pn (Proto.audioOutCfg s.voice_id))
      let (s, e2) := start_audio_input s
      (s, e1 ++ e2, [])
  | Proto.InEvent.textOutput _ => (s, [], [])
  | Proto.InEvent.inputTranscript _ => (s, [], [])
  | Proto.InEvent.malformed => (s, [], [])

/-- Method `recv_loop` over a list of inbound events; `while self.active` is
checked before each iteration. -/
def recvRun : Session → List Proto.InEvent → Session × List Proto.Event × List (List Nat)
  | s, [] => (s, [], [])
  | s, e :: es =>
      if ¬ s.active then (s, [], [])
      else
        let (s1, p1, a1) := recvStep s e
        let (s2, p2, a2) := recvRun s1 es
        (s2, p1 ++ p2, a1 ++ a2)

/-- Method `SonicSession.close` (lines 472-521).  The source sets
`self.active = False` first; every later `_send_event` call is then dropped
by the `not self.active` guard, so no teardown event reaches the transport.
The `finally` block releases the stream. -/
def close (s : Session) : Session × List Proto.Event :=
  if ¬ s.active then (s, [])
  else
    let s := { s with active := false }
    let evs :=
      (match s.current_audio_content_name with
       | some cn =>
           send_event s (Proto.Event.contentEnd s.prompt_name cn "AUDIO") ++
             send_event s (Proto.Event.promptEnd s.prompt_name)
       | none => []) ++ send_event s Proto.Event.sessionEnd
    ({ s with stream := false }, evs)

end Sonic

namespace Nova

/-- Enum `StreamingState` (`nova_sonic_streaming.py` lines 40-47). -/
inductive StreamingState where
  | IDLE
  | STARTING
  | READY
  | STREAMING
  | CLOSING
  | CLOSED
deriving DecidableEq, Repr

/-- Mutable fields of `NovaSonicStreamingSession` (lines 60-84); the
metrics dictionary and semaphore do not influence any claim and are
omitted. -/
structure Session where
  voice_id : String
  system_prompt : String
  stream_sid : String
  stream : Bool
  state : StreamingState
  prompt_name : Nat
  current_audio_content_name : Option Nat
  receiving : Bool
  user_speaking : Bool
  supply : Nat
deriving DecidableEq, Repr

/-- Constructor `NovaSonicStreamingSession.__init__`. -/
def mkSession (voice prompt sid : String) : Session :=
  { voice_id := voice, system_prompt := prompt, stream_sid := sid,
    stream := false, state := StreamingState.IDLE, prompt_name := 0,
    current_audio_content_name := none, receiving := false,
    user_speaking := false, supply := 1 }

/-- Method `_send_event` (lines 469-483): the event is dropped when the stream is
gone or the state is `CLOSED`; transport success is assumed. -/
def send_event (s : Session) (e : Proto.Event) : List Proto.Event :=
  if ¬ s.stream ∨ s.state = StreamingState.CLOSED then [] else [e]

/-- Method `_send_system_prompt` (lines 201-239). -/
def send_system_prompt (s : Session) : Session × List Proto.Event :=
  let cn := s.supply
  let s := { s with supply := s.supply + 1 }
  let e1 := send_event s (Proto.Event.contentStartText s.prompt_name cn false "SYSTEM")
  let e2 := send_event s (Proto.Event.textInput s.prompt_name cn s.system_prompt)
  let e3 := send_event s (Proto.Event.contentEnd s.prompt_name cn "TEXT")
  (s, e1 ++ e2 ++ e3)

/-- Method `_start_audio_content` (lines 241-265): fresh content name, open the
interactive user audio block, set `user_speaking`. -/
def start_audio_content (s : Session) : Session × List Proto.Event :=
  let cn := s.supply
  let s := { s with supply := s.supply + 1, current_audio_content_name := some cn }
  let evs := send_event s (Proto.Event.contentStartAudio s.prompt_name cn)
  ({ s with user_speaking := true }, evs)

/-- Method `_initialize_session` (lines 156-199): emits `sessionStart`,
`promptStart`, the system prompt block and the user audio block, then runs
`await self._trigger_initial_greeting()` — a method defined nowhere on the
class, so the call raises `AttributeError` after the preceding events have
been sent.  The returned flag records the exception. -/
def setup_session (s : Session) : Session × List Proto.Event × Bool :=
  let e1 := send_event s (Proto.Event.sessionStart 256)
  let e2 := send_event s (Proto.Event.promptStart s.prompt_name (Proto.audioOutCfg s.voice_id))
  let (s, e3) := send_system_prompt s
  let (s, e4) := start_audio_content s
  (s, e1 ++ e2 ++ e3 ++ e4, true)

/-- Method `start` (lines 110-154): refuses outside `IDLE`; otherwise sets
`STARTING`, opens the stream (success assumed), runs `_initialize_session`,
and when that raises resets the state to `IDLE` and re-raises; the `READY`
assignment and `self.receiving = True` are only reached when no exception
occurs. -/
def start (s : Session) : Session × List Proto.Event × Bool :=
  if s.state ≠ StreamingState.IDLE then (s, [], false)
  else
    let s := { s with state := StreamingState.STARTING, stream := true }
    let (s, evs, raised) := setup_session s
    if raised then ({ s with state := StreamingState.IDLE }, evs, true)
    else ({ s with state := StreamingState.READY, receiving := true }, evs, false)

/-- Method `send_audio` (lines 267-291): refuses unless an audio content block is
open and the state is exactly `READY`; all send errors are caught, so the
method never raises. -/
def send_audio (s : Session) (pcm16 : List Nat) : Session × List Proto.Event :=
  match s.current_audio_content_name with
  | none => (s, [])
  | some cn =>
      if s.state ≠ StreamingState.READY then (s, [])
      else (s, send_event s (Proto.Event.audioInput s.prompt_name cn (Codec.b64encode pcm16)))

/-- Method `finish_user_turn` (lines 293-326): guarded only by `user_speaking` and
an open content block — the session state is not consulted.  Clears
`user_speaking` first, then closes the content block and the prompt. -/
def finish_user_turn (s : Session) : Session × List Proto.Event :=
  match s.current_audio_content_name with
  | none => (s, [])
  | some cn =>
      if ¬ s.user_speaking then (s, [])
      else
        let s := { s with user_speaking := false }
        let e1 := send_event s (Proto.Event.contentEnd s.prompt_name cn "AUDIO")
        let e2 := send_event s (Proto.Event.promptEnd s.prompt_name)
        ({ s with current_audio_content_name := none }, e1 ++ e2)

/-- One iteration of `receive_audio` (lines 328-410) on a decoded inbound
event; `completionEnd` rotates the prompt and reopens the user audio
block. -/
def recvStep (s : Session) (e : Proto.InEvent) :
    Session × List Proto.Event × List (List Nat) :=
  match e with
  | Proto.InEvent.audioOutput c => (s, [], [c])
  | Proto.InEvent.completionEnd =>
      let pn := s.supply
      let s := { s with supply := s.supply + 1, prompt_name := pn }
      let e1 := send_event s (Proto.Event.promptStart pn (Proto.audioOutCfg s.voice_id))
      let (s, e2) := start_audio_content s
      (s, e1 ++ e2, [])
  | Proto.InEvent.textOutput _ => (s, [], [])
  | Proto.InEvent.inputTranscript _ => (s, [], [])
  | Proto.InEvent.malformed => (s, [], [])

/-- Method `receive_audio` over a list of inbound events; the entry guard requires
a stream and `receiving`, and `while self.receiving` is checked before each
iteration. -/
def recvRun : Session → List Proto.InEvent → Session × List Proto.Event × List (List Nat)
  | s, [] => (s, [], [])
  | s, e :: es =>
      if ¬ s.receiving ∨ ¬ s.stream then (s, [], [])
      else
        let (s1, p1, a1) := recvStep s e
        let (s2, p2, a2) := recvRun s1 es
        (s2, p1 ++ p2, a1 ++ a2)

/-- Method `close` (lines 412-467): immediate return when already `CLOSED`;
otherwise marks `CLOSING`, stops the receiver, closes any open content
block and the prompt, emits `sessionEnd`, and in `finally` sets `CLOSED`
and releases the stream. -/
def close (s : Session) : Session × List Proto.Event :=
  if s.state = StreamingState.CLOSED then (s, [])
  else
    let s := { s with state := StreamingState.CLOSING, receiving := false }
    let evs :=
      (match s.current_audio_content_name with
       | some cn =>
           send_event s (Proto.Event.contentEnd s.prompt_name cn "AUDIO") ++
             send_event s (Proto.Event.promptEnd s.prompt_name)
       | none => []) ++ send_event s Proto.Event.sessionEnd
    ({ s with state := StreamingState.CLOSED, stream := false }, evs)

/-- Session states reachable through the public methods from a freshly
constructed session. -/
inductive Reach : Session → Prop where
  | mk (voice prompt sid : String) : Reach (mkSession voice prompt sid)
  | start {s} : Reach s → Reach (start s).1
  | send_audio {s} (pcm : List Nat) : Reach s → Reach (send_audio s pcm).1
  | finish {s} : Reach s → Reach (finish_user_turn s).1
  | close {s} : Reach s → Reach (close s).1
  | recv {s} (e : Proto.InEvent) : Reach s → Reach (recvStep s e).1

end Nova

namespace Orch

/-- Actions performed by `handle_websocket` (`websocket_service.py`), in
program order: calls into the model session, task management, and messages
written back to the Twilio websocket. -/
inductive Act where
  | sessionStartCall
  | triggerInitial
  | spawnRelay (id : Nat)
  | spawnCap
  | clearMsg
  | cancelRelay (id : Nat)
  | awaitRelay (id : Nat)
  | forwardAudio (pcm : List Nat)
  | finishTurn
deriving DecidableEq, Repr

/-- Inbound occurrences driving `handle_websocket`: the Twilio control
events of the message loop (lines 108-190), plus the environment
transition `relayDone` marking that a relay task's `recv_loop` iteration
ended on its own. -/
inductive Ev where
  | start
  | media (payload : String)
  | stop
  | other
  | relayDone (id : Nat)
deriving DecidableEq, Repr

/-- Orchestrator state: `receive_task` (the reference held by
`handle_websocket`), `live` (relay tasks created and not yet finished or
cancelled, so `receive_task.done()` is `id ∉ live`),
`audio_input_started`, and the task-identifier supply. -/
structure St where
  receive_task : Option Nat
  live : List Nat
  audio_input_started : Bool
  supply : Nat
deriving DecidableEq, Repr

/-- State at the top of `handle_websocket` (lines 50-54):
`receive_task = None`, `audio_input_started = False`. -/
def st0 : St :=
  ⟨none, [], false, 0⟩

/-- The relay task referenced by `receive_task` when it is not done
(`receive_task and not receive_task.done()`). -/
def activeRelay (s : St) : Option Nat :=
  match s.receive_task with
  | some id => if id ∈ s.live then some id else none
  | none => none

/-- Assignment `receive_task = asyncio.create_task(relay_model_audio())`. -/
def spawnRelay (s : St) : St × List Act :=
  (⟨some s.supply, s.live ++ [s.supply], s.audio_input_started, s.supply + 1⟩,
   [Act.spawnRelay s.supply])

/-- One iteration of the `async for raw in websocket` dispatch
(lines 108-190), plus the environment transition for a relay task that
finishes by itself.  The `media` branch is the interruption protocol of
lines 138-169: with an active relay task it sends `clear` to Twilio,
cancels the task, awaits it, clears `receive_task`, and only then decodes
and forwards the payload. -/
def step (s : St) : Ev → St × List Act
  | Ev.start =>
      let s := { s with audio_input_started := true }
      let (s, a) := if (activeRelay s).isNone then spawnRelay s else (s, [])
      (s, [Act.sessionStartCall, Act.triggerInitial] ++ a ++ [Act.spawnCap])
  | Ev.media payload =>
      if ¬ s.audio_input_started then (s, [])
      else
        let (s, pre) :=
          match activeRelay s with
          | some id =>
              ({ s with live := s.live.erase id, receive_task := none },
               [Act.clearMsg, Act.cancelRelay id, Act.awaitRelay id])
          | none => (s, [])
        if payload ≠ "" then
          (s, pre ++ [Act.forwardAudio (Codec.ulaw_b64_to_pcm16_bytes payload)])
        else (s, pre)
  | Ev.stop =>
      if ¬ s.audio_input_started then (s, [])
      else
        let (s, a) := if (activeRelay s).isNone then spawnRelay s else (s, [])
        (s, [Act.finishTurn] ++ a)
  | Ev.other => (s, [])
  | Ev.relayDone id => ({ s with live := s.live.erase id }, [])

/-- The message loop over a trace of events. -/
def run : St → List Ev → St × List Act
  | s, [] => (s, [])
  | s, e :: es =>
      let (s1, a1) := step s e
      let (s2, a2) := run s1 es
      (s2, a1 ++ a2)

/-- Orchestrator invariant: every live relay task is the one referenced by
`receive_task` (hence at most one is live), and a relay task can only be
live after audio input started. -/
def Inv (s : St) : Prop :=
  (∀ id ∈ s.live, s.receive_task = some id) ∧
  s.live.length ≤ 1 ∧
  (s.live ≠ [] → s.audio_input_started = true)

end Orch
namespace Vad

theorem vadRun_speech (confs : List ℚ) (hall : ∀ c ∈ confs, VAD_THRESHOLD < c)
    (n : Nat) (b : Bool) :
    vadRun ⟨n, 0, b⟩ confs =
      ⟨n + confs.length, 0,
        if SPEECH_FRAMES_THRESHOLD ≤ n + confs.length ∧ 0 < confs.length then true else b⟩ := by
  induction confs generalizing n b with
  | nil => simp [vadRun]
  | cons c cs ih =>
    have hc : VAD_THRESHOLD < c := hall c (by simp)
    have hcs : ∀ x ∈ cs, VAD_THRESHOLD < x := fun x hx => hall x (by simp [hx])
    have hstep : vadStep ⟨n, 0, b⟩ c =
        ⟨n + 1, 0, if SPEECH_FRAMES_THRESHOLD ≤ n + 1 then true else b⟩ := by
      simp [vadStep, hc]
    have hrun : vadRun ⟨n, 0, b⟩ (c :: cs) =
        vadRun ⟨n + 1, 0, if SPEECH_FRAMES_THRESHOLD ≤ n + 1 then true else b⟩ cs := by
      simp [vadRun, List.foldl_cons, hstep]
    rw [hrun, ih hcs]
    simp only [List.length_cons, ApState.mk.injEq]
    refine ⟨by omega, trivial, ?_⟩
    split_ifs <;> first | rfl | omega

theorem vadRun_silence (confs : List ℚ) (hall : ∀ c ∈ confs, ¬ VAD_THRESHOLD < c)
    (k m : Nat) (b : Bool) (hne : 0 < confs.length) :
    vadRun ⟨k, m, b⟩ confs =
      ⟨0, m + confs.length,
        if SILENCE_FRAMES_THRESHOLD ≤ m + confs.length then false else b⟩ := by
  induction confs generalizing k m b with
  | nil => simp at hne
  | cons c cs ih =>
    have hc : ¬ VAD_THRESHOLD < c := hall c (by simp)
    have hcs : ∀ x ∈ cs, ¬ VAD_THRESHOLD < x := fun x hx => hall x (by simp [hx])
    have hstep : vadStep ⟨k, m, b⟩ c =
        ⟨0, m + 1, if SILENCE_FRAMES_THRESHOLD ≤ m + 1 then false else b⟩ := by
      simp [vadStep, hc]
    have hrun : vadRun ⟨k, m, b⟩ (c :: cs) =
        vadRun ⟨0, m + 1, if SILENCE_FRAMES_THRESHOLD ≤ m + 1 then false else b⟩ cs := by
      simp [vadRun, List.foldl_cons, hstep]
    rcases Nat.eq_zero_or_pos cs.length with hcs0 | hcspos
    · have : cs = [] := List.length_eq_zero.mp hcs0
      subst this
      rw [hrun]
      simp [vadRun]
    · rw [hrun, ih hcs 0 (m + 1) _ hcspos]
      simp only [List.length_cons, ApState.mk.injEq]
      refine ⟨trivial, by omega, ?_⟩
      split_ifs <;> first | rfl | omega

end Vad

namespace BpQueue

theorem evictPush_length_le {α : Type} (q : List α) (x : α)
    (h : q.length ≤ QUEUE_CAPACITY) : (evictPush q x).length ≤ QUEUE_CAPACITY := by
  have hcap : QUEUE_CAPACITY = 50 := rfl
  unfold evictPush
  by_cases hlt : q.length < QUEUE_CAPACITY
  · rw [if_pos hlt]
    rw [hcap] at hlt ⊢
    simp only [List.length_append, List.length_cons, List.length_nil]
    omega
  · rw [if_neg hlt]
    rw [hcap] at h hlt ⊢
    simp only [List.length_append, List.length_cons, List.length_nil, List.length_drop]
    omega

theorem pushAll_length_le {α : Type} (xs : List α) (q : List α)
    (h : q.length ≤ QUEUE_CAPACITY) : (pushAll q xs).length ≤ QUEUE_CAPACITY := by
  induction xs generalizing q with
  | nil => exact h
  | cons x xs ih =>
    have hstep : pushAll q (x :: xs) = pushAll (evictPush q x) xs := rfl
    rw [hstep]
    exact ih _ (evictPush_length_le q x h)

end BpQueue

/-- C3: the backpressure queue of outbound audio frames never exceeds its
capacity of 50; when a frame arrives with the queue full, the oldest entry
is evicted before the new one is admitted; pushing frames 1..51 into the
empty queue leaves exactly frames 2..51, length 50. -/
theorem C3_backpressure_queue :
    (∀ xs : List Nat, (BpQueue.pushAll [] xs).length ≤ BpQueue.QUEUE_CAPACITY) ∧
    (∀ (q : List Nat) (x : Nat), q.length = BpQueue.QUEUE_CAPACITY →
      BpQueue.evictPush q x = q.drop 1 ++ [x]) ∧
    BpQueue.pushAll [] (List.range' 1 51) = List.range' 2 50 ∧
    (BpQueue.pushAll [] (List.range' 1 51)).length = 50 := by
  refine ⟨fun xs => BpQueue.pushAll_length_le xs [] (by simp), ?_, by decide, by decide⟩
  intro q x h
  unfold BpQueue.evictPush
  simp [h]

/-- Witness for C3 at a concrete full queue. -/
theorem C3_backpressure_queue_witness :
    (List.range' 1 50).length = BpQueue.QUEUE_CAPACITY ∧
    BpQueue.evictPush (List.range' 1 50) 51 = (List.range' 1 50).drop 1 ++ [51] :=
  ⟨by decide, C3_backpressure_queue.2.1 (List.range' 1 50) 51 (by decide)⟩

/-- C2 counterexample: from the freshly constructed detector, twelve
consecutive frames with confidence 0.9 (strictly above the 0.5 threshold)
already set `is_speaking`, although the speech counter has only reached 12
and never 13 — refuting "becomes true exactly when the counter first
reaches 13, never earlier". -/
theorem C2_counterexample :
    (Vad.vadRun Vad.apInit (List.replicate 12 (9 / 10 : ℚ))).is_speaking = true ∧
    (Vad.vadRun Vad.apInit (List.replicate 12 (9 / 10 : ℚ))).speech_frames = 12 := by
  have hall : ∀ c ∈ List.replicate 12 (9 / 10 : ℚ), Vad.VAD_THRESHOLD < c := by
    intro c hc
    rw [List.eq_of_mem_replicate hc]
    norm_num [Vad.VAD_THRESHOLD]
  rw [show Vad.apInit = (⟨0, 0, false⟩ : Vad.ApState) from rfl,
    Vad.vadRun_speech (List.replicate 12 (9 / 10 : ℚ)) hall 0 false]
  decide

/-- C2 (amended): `SPEECH_FRAMES_THRESHOLD = int(250 / 20) = 12`, so for
any all-above-threshold confidence sequence from the initial state,
`is_speaking` becomes true exactly when the speech counter first reaches 12
(never earlier); and from any speaking state with the silence counter at
zero, an all-at-or-below-threshold sequence makes `is_speaking` false
exactly at the 35th consecutive silent frame. -/
theorem C2_vad_hysteresis :
    (∀ confs : List ℚ, (∀ c ∈ confs, Vad.VAD_THRESHOLD < c) →
      ((Vad.vadRun Vad.apInit confs).is_speaking = true ↔
        Vad.SPEECH_FRAMES_THRESHOLD ≤ confs.length) ∧
      (Vad.vadRun Vad.apInit confs).speech_frames = confs.length) ∧
    (∀ (confs : List ℚ) (k : Nat), (∀ c ∈ confs, ¬ Vad.VAD_THRESHOLD < c) →
      ((Vad.vadRun ⟨k, 0, true⟩ confs).is_speaking = false ↔
        Vad.SILENCE_FRAMES_THRESHOLD ≤ confs.length)) := by
  have h12 : Vad.SPEECH_FRAMES_THRESHOLD = 12 := rfl
  have h35 : Vad.SILENCE_FRAMES_THRESHOLD = 35 := rfl
  constructor
  · intro confs hall
    rw [show Vad.apInit = (⟨0, 0, false⟩ : Vad.ApState) from rfl,
      Vad.vadRun_speech confs hall 0 false]
    refine ⟨?_, by show 0 + confs.length = confs.length; omega⟩
    show (if Vad.SPEECH_FRAMES_THRESHOLD ≤ 0 + confs.length ∧ 0 < confs.length
        then true else false) = true ↔ Vad.SPEECH_FRAMES_THRESHOLD ≤ confs.length
    rw [h12]
    by_cases h : 12 ≤ 0 + confs.length ∧ 0 < confs.length
    · rw [if_pos h]
      exact ⟨fun _ => by omega, fun _ => rfl⟩
    · rw [if_neg h]
      constructor
      · intro hf
        exact absurd hf (by simp)
      · intro hlen
        exact absurd ⟨by omega, by omega⟩ h
  · intro confs k hall
    rcases Nat.eq_zero_or_pos confs.length with h0 | hpos
    · have hnil : confs = [] := List.length_eq_zero.mp h0
      subst hnil
      show ((⟨k, 0, true⟩ : Vad.ApState).is_speaking = false ↔
        Vad.SILENCE_FRAMES_THRESHOLD ≤ List.length [])
      rw [h35]
      simp
    · rw [Vad.vadRun_silence confs hall k 0 true hpos]
      show (if Vad.SILENCE_FRAMES_THRESHOLD ≤ 0 + confs.length then false else true) = false ↔
        Vad.SILENCE_FRAMES_THRESHOLD ≤ confs.length
      rw [h35]
      by_cases h : 35 ≤ 0 + confs.length
      · rw [if_pos h]
        exact ⟨fun _ => by omega, fun _ => rfl⟩
      · rw [if_neg h]
        constructor
        · intro hf
          exact absurd hf (by simp)
        · intro hlen
          exact absurd (by omega) h

/-- Witness for C2 (amended): twelve high-confidence frames raise the flag;
thirty-five silent frames lower it. -/
theorem C2_vad_hysteresis_witness :
    (Vad.vadRun Vad.apInit (List.replicate 12 (9 / 10 : ℚ))).is_speaking = true ∧
    (Vad.vadRun ⟨12, 0, true⟩ (List.replicate 35 (0 : ℚ))).is_speaking = false := by
  constructor
  · refine ((C2_vad_hysteresis.1 (List.replicate 12 (9 / 10 : ℚ)) ?_).1).mpr (by decide)
    intro c hc
    rw [List.eq_of_mem_replicate hc]
    norm_num [Vad.VAD_THRESHOLD]
  · refine (C2_vad_hysteresis.2 (List.replicate 35 (0 : ℚ)) 12 ?_).mpr (by decide)
    intro c hc
    rw [List.eq_of_mem_replicate hc]
    norm_num [Vad.VAD_THRESHOLD]

/-- C10: while the updated `is_speaking` is false the frame is suppressed
(`process_incoming` forwards nothing); while it is true the returned frame
is the input with every sample whose normalized magnitude is at or below
the 0.02 noise-gate threshold zeroed. -/
theorem C10_speaking_gate :
    ∀ (s : Vad.ApState) (frame : List Int) (conf : ℚ),
      ((Vad.process_incoming s frame conf).1.is_speaking = false →
        (Vad.process_incoming s frame conf).2 = none) ∧
      ((Vad.process_incoming s frame conf).1.is_speaking = true →
        (Vad.process_incoming s frame conf).2 =
          some (frame.map (fun x => if 100 * x.natAbs ≤ 65536 then 0 else x))) := by
  intro s frame conf
  have hmap : Vad.reduce_noise frame =
      frame.map (fun x => if 100 * x.natAbs ≤ 65536 then 0 else x) := by
    unfold Vad.reduce_noise
    apply List.map_congr_left
    intro x _
    unfold Vad.noiseGate
    by_cases h : 65536 < 100 * x.natAbs
    · rw [if_pos h, if_neg (by omega)]
    · rw [if_neg h, if_pos (by omega)]
  unfold Vad.process_incoming
  rcases hcase : (Vad.vadStep s conf).is_speaking with _ | _
  · simp [hcase]
  · simp [hcase, hmap]

/-- Witness for C10: a silent frame from the initial state is dropped; a
frame that completes the 12-frame speech run is forwarded noise-gated. -/
theorem C10_speaking_gate_witness :
    (Vad.process_incoming Vad.apInit [(656 : Int)] 0).2 = none ∧
    (Vad.process_incoming ⟨11, 0, false⟩ [(656 : Int), 655, -700, 0] 1).2 =
      some [656, 0, -700, 0] := by
  have hc1 : ¬ Vad.VAD_THRESHOLD < (0 : ℚ) := by norm_num [Vad.VAD_THRESHOLD]
  have hc2 : Vad.VAD_THRESHOLD < (1 : ℚ) := by norm_num [Vad.VAD_THRESHOLD]
  have hs1 : Vad.vadStep Vad.apInit 0 = ⟨0, 1, false⟩ := by
    simp [Vad.vadStep, Vad.apInit, hc1, Vad.SILENCE_FRAMES_THRESHOLD,
      Vad.VAD_MIN_SILENCE_MS, Vad.FRAME_DURATION_MS]
  have hs2 : Vad.vadStep ⟨11, 0, false⟩ 1 = ⟨12, 0, true⟩ := by
    simp [Vad.vadStep, hc2, Vad.SPEECH_FRAMES_THRESHOLD,
      Vad.VAD_MIN_SPEECH_MS, Vad.FRAME_DURATION_MS]
  have hfalse : (Vad.process_incoming Vad.apInit [(656 : Int)] 0).1.is_speaking = false := by
    unfold Vad.process_incoming
    rw [hs1]
    decide
  have htrue : (Vad.process_incoming ⟨11, 0, false⟩ [(656 : Int), 655, -700, 0] 1).1.is_speaking
      = true := by
    unfold Vad.process_incoming
    rw [hs2]
    decide
  constructor
  · exact (C10_speaking_gate Vad.apInit [(656 : Int)] 0).1 hfalse
  · rw [(C10_speaking_gate ⟨11, 0, false⟩ [(656 : Int), 655, -700, 0] 1).2 htrue]
    decide

namespace Codec

end Codec

namespace Nova

theorem send_audio_fst (s : Session) (pcm : List Nat) : (send_audio s pcm).1 = s := by
  unfold send_audio
  rcases s.current_audio_content_name with _ | cn
  · rfl
  · by_cases h : s.state ≠ StreamingState.READY
    · simp [h]
    · simp [h]

theorem finish_state (s : Session) : (finish_user_turn s).1.state = s.state := by
  unfold finish_user_turn
  rcases s.current_audio_content_name with _ | cn
  · rfl
  · by_cases h : s.user_speaking
    · simp [h]
    · simp [h]

theorem close_fst_state (s : Session) : (close s).1.state = StreamingState.CLOSED := by
  unfold close
  by_cases h : s.state = StreamingState.CLOSED
  · simp [h]
  · simp [h]

theorem recv_state (s : Session) (e : Proto.InEvent) : (recvStep s e).1.state = s.state := by
  unfold recvStep
  cases e <;> simp [start_audio_content]

theorem start_not_idle (s : Session) (h : s.state ≠ StreamingState.IDLE) :
    start s = (s, [], false) := by
  unfold start
  rw [if_pos h]

theorem start_from_idle (s : Session) (h : s.state = StreamingState.IDLE) :
    (start s).1.state = StreamingState.IDLE ∧ (start s).2.2 = true := by
  unfold start setup_session send_system_prompt start_audio_content
  rw [if_neg (by simp [h])]
  simp

theorem reach_state {s : Session} (h : Reach s) :
    s.state = StreamingState.IDLE ∨ s.state = StreamingState.CLOSED := by
  induction h with
  | mk v p sid => exact Or.inl rfl
  | @start s hs ih =>
    by_cases hi : s.state = StreamingState.IDLE
    · exact Or.inl (start_from_idle s hi).1
    · rw [start_not_idle s hi]
      exact ih
  | @send_audio s pcm hs ih =>
    rw [send_audio_fst]
    exact ih
  | @finish s hs ih =>
    rw [finish_state]
    exact ih
  | @close s hs ih =>
    exact Or.inr (close_fst_state s)
  | @recv s e hs ih =>
    rw [recv_state]
    exact ih

theorem close_when_closed (s : Session) (h : s.state = StreamingState.CLOSED) :
    close s = (s, []) := by
  unfold close
  rw [if_pos h]

end Nova

namespace Sonic

theorem close_when_inactive (s : Session) (h : s.active = false) :
    close s = (s, []) := by
  unfold close
  rw [if_pos (by simp [h])]

end Sonic

/-- C6: every `start()` call on the optimized streaming session from IDLE
raises (the initialization sequence invokes the undefined
`_trigger_initial_greeting`) and puts the state back to IDLE; consequently
no reachable session state is READY. -/
theorem C6_start_always_raises :
    (∀ s : Nova.Session, s.state = Nova.StreamingState.IDLE →
      (Nova.start s).2.2 = true ∧
      (Nova.start s).1.state = Nova.StreamingState.IDLE) ∧
    (∀ s : Nova.Session, Nova.Reach s → s.state ≠ Nova.StreamingState.READY) := by
  constructor
  · intro s h
    exact ⟨(Nova.start_from_idle s h).2, (Nova.start_from_idle s h).1⟩
  · intro s h
    rcases Nova.reach_state h with h1 | h1 <;> simp [h1]

/-- Witness for C6 at a freshly constructed session. -/
theorem C6_start_always_raises_witness :
    (Nova.start (Nova.mkSession "tiffany" "prompt" "MZ1")).2.2 = true ∧
    (Nova.start (Nova.mkSession "tiffany" "prompt" "MZ1")).1.state =
      Nova.StreamingState.IDLE ∧
    (Nova.mkSession "tiffany" "prompt" "MZ1").state ≠ Nova.StreamingState.READY :=
  ⟨(C6_start_always_raises.1 _ rfl).1, (C6_start_always_raises.1 _ rfl).2,
    C6_start_always_raises.2 _ (Nova.Reach.mk _ _ _)⟩

/-- C5 counterexample: the failed `start` leaves the session in IDLE with
an open user audio block, `user_speaking` set and a live stream; calling
`finish_user_turn` there emits a `contentEnd` and a `promptEnd` on the
transport — not a silent no-op as claimed for the IDLE state. -/
theorem C5_counterexample :
    (Nova.start (Nova.mkSession "mathew" "p" "sid")).1.state =
      Nova.StreamingState.IDLE ∧
    (Nova.finish_user_turn (Nova.start (Nova.mkSession "mathew" "p" "sid")).1).2 =
      [Proto.Event.contentEnd 0 2 "AUDIO", Proto.Event.promptEnd 0] := by
  constructor
  · rfl
  · rfl

/-- C5 (amended): `sendAudio` is a silent no-op whenever the state is IDLE
or CLOSED, and `start` outside IDLE is a no-op; `finishUserTurn` emits
nothing while CLOSED and is a no-op whenever no user turn is open, but in
IDLE with an open user audio block, live stream and `user_speaking` set
(the state a failed `start` leaves behind) it does emit `contentEnd` and
`promptEnd`. -/
theorem C5_noop_guards :
    (∀ (s : Nova.Session) (pcm : List Nat),
      s.state = Nova.StreamingState.IDLE ∨ s.state = Nova.StreamingState.CLOSED →
      Nova.send_audio s pcm = (s, [])) ∧
    (∀ s : Nova.Session, s.state ≠ Nova.StreamingState.IDLE →
      Nova.start s = (s, [], false)) ∧
    (∀ s : Nova.Session, s.state = Nova.StreamingState.CLOSED →
      (Nova.finish_user_turn s).2 = []) ∧
    (∀ s : Nova.Session,
      s.user_speaking = false ∨ s.current_audio_content_name = none →
      Nova.finish_user_turn s = (s, [])) ∧
    (∀ s : Nova.Session, s.state = Nova.StreamingState.IDLE →
      s.user_speaking = true → s.current_audio_content_name ≠ none →
      s.stream = true → (Nova.finish_user_turn s).2 ≠ []) := by
  refine ⟨?_, Nova.start_not_idle, ?_, ?_, ?_⟩
  · intro s pcm h
    have hne : s.state ≠ Nova.StreamingState.READY := by
      rcases h with h | h <;> simp [h]
    unfold Nova.send_audio
    rcases s.current_audio_content_name with _ | cn
    · rfl
    · simp [hne]
  · intro s h
    unfold Nova.finish_user_turn
    rcases s.current_audio_content_name with _ | cn
    · rfl
    · by_cases hu : s.user_speaking
      · simp [hu, Nova.send_event, h]
      · simp [hu]
  · intro s h
    unfold Nova.finish_user_turn
    rcases hcn : s.current_audio_content_name with _ | cn
    · rfl
    · rcases h with h | h
      · simp [h]
      · rw [hcn] at h
        cases h
  · intro s hstate hu hcn hstream
    unfold Nova.finish_user_turn
    rcases hc : s.current_audio_content_name with _ | cn
    · exact absurd hc hcn
    · simp [hu, Nova.send_event, hstream, hstate]

/-- Witness for C5 (amended) at concrete sessions. -/
theorem C5_noop_guards_witness :
    Nova.send_audio (Nova.mkSession "v" "p" "sid") [1, 2] =
      (Nova.mkSession "v" "p" "sid", []) ∧
    Nova.start { Nova.mkSession "v" "p" "sid" with
        state := Nova.StreamingState.CLOSED } =
      ({ Nova.mkSession "v" "p" "sid" with state := Nova.StreamingState.CLOSED },
        [], false) ∧
    Nova.finish_user_turn (Nova.mkSession "v" "p" "sid") =
      (Nova.mkSession "v" "p" "sid", []) ∧
    (Nova.finish_user_turn (Nova.start (Nova.mkSession "v" "p" "sid")).1).2 ≠ [] := by
  refine ⟨C5_noop_guards.1 _ [1, 2] (Or.inl rfl), C5_noop_guards.2.1 _ (by decide),
    C5_noop_guards.2.2.2.1 _ (Or.inl rfl), ?_⟩
  exact C5_noop_guards.2.2.2.2 _ (by rfl) (by rfl) (by decide) (by rfl)

/-- C8: `SonicSession.close` sets `active = False` before any teardown
event is sent, and `_send_event` drops every event once the session is
inactive — so `close` emits no `contentEnd`, `promptEnd` or `sessionEnd` at
all, in particular at the failing input: an active session holding a
stream and an open user audio content block. -/
theorem C8_close_emits_no_events :
    (∀ s : Sonic.Session, (Sonic.close s).2 = []) ∧
    (Sonic.close ⟨"mathew", true, true, 3, some 7, true, 8⟩).2 = [] := by
  have hall : ∀ s : Sonic.Session, (Sonic.close s).2 = [] := by
    intro s
    unfold Sonic.close
    by_cases h : s.active
    · rw [if_neg (by simp [h])]
      rcases hc : s.current_audio_content_name with _ | cn <;>
        simp [hc, Sonic.send_event]
    · rw [if_pos (by simp [h])]
  exact ⟨hall, hall _⟩

/-- C9: close is idempotent in both session implementations: the first
close of a non-closed (resp. active) session reaches the terminal state
and releases the transport; a second close returns immediately with no
further events and the same state. -/
theorem C9_close_idempotent :
    (∀ s : Nova.Session, s.state ≠ Nova.StreamingState.CLOSED →
      (Nova.close s).1.state = Nova.StreamingState.CLOSED ∧
      (Nova.close s).1.stream = false ∧
      Nova.close (Nova.close s).1 = ((Nova.close s).1, [])) ∧
    (∀ s : Sonic.Session, s.active = true →
      (Sonic.close s).1.active = false ∧
      (Sonic.close s).1.stream = false ∧
      Sonic.close (Sonic.close s).1 = ((Sonic.close s).1, [])) := by
  constructor
  · intro s h
    refine ⟨Nova.close_fst_state s, ?_, Nova.close_when_closed _ (Nova.close_fst_state s)⟩
    unfold Nova.close
    rw [if_neg h]
  · intro s h
    have h1 : (Sonic.close s).1.active = false := by
      unfold Sonic.close
      rw [if_neg (by simp [h])]
    refine ⟨h1, ?_, Sonic.close_when_inactive _ h1⟩
    unfold Sonic.close
    rw [if_neg (by simp [h])]

/-- Witness for C9 at concrete sessions. -/
theorem C9_close_idempotent_witness :
    Nova.close (Nova.close (Nova.mkSession "v" "p" "sid")).1 =
      ((Nova.close (Nova.mkSession "v" "p" "sid")).1, []) ∧
    Sonic.close (Sonic.close { (Sonic.mkSession "v") with active := true }).1 =
      ((Sonic.close { (Sonic.mkSession "v") with active := true }).1, []) :=
  ⟨(C9_close_idempotent.1 _ (by decide)).2.2, (C9_close_idempotent.2 _ rfl).2.2⟩

/-- C4: on `completionEnd` the receive loop immediately opens a new prompt
scope — a `promptStart` carrying a freshly drawn identifier distinct from
the previous one and the same output configuration (the literal
`audioOutCfg` of the session's voice) — then reopens an interactive user
audio content block, and only afterwards processes further events; in both
session implementations. -/
theorem C4_completion_rotation :
    (∀ (s : Sonic.Session) (es : List Proto.InEvent),
      s.active = true → s.stream = true → s.session_started = true →
      s.prompt_name < s.supply →
      Sonic.recvRun s (Proto.InEvent.completionEnd :: es) =
        ((Sonic.recvRun { s with supply := s.supply + 2, prompt_name := s.supply, current_audio_content_name := some (s.supply + 1) } es).1,
         Proto.Event.promptStart s.supply (Proto.audioOutCfg s.voice_id) ::
           Proto.Event.contentStartAudio s.supply (s.supply + 1) ::
             (Sonic.recvRun { s with supply := s.supply + 2, prompt_name := s.supply, current_audio_content_name := some (s.supply + 1) } es).2.1,
         (Sonic.recvRun { s with supply := s.supply + 2, prompt_name := s.supply, current_audio_content_name := some (s.supply + 1) } es).2.2) ∧
      s.supply ≠ s.prompt_name) ∧
    (∀ (s : Nova.Session) (es : List Proto.InEvent),
      s.receiving = true → s.stream = true → s.state ≠ Nova.StreamingState.CLOSED →
      s.prompt_name < s.supply →
      Nova.recvRun s (Proto.InEvent.completionEnd :: es) =
        ((Nova.recvRun { s with supply := s.supply + 2, prompt_name := s.supply, current_audio_content_name := some (s.supply + 1), user_speaking := true } es).1,
         Proto.Event.promptStart s.supply (Proto.audioOutCfg s.voice_id) ::
           Proto.Event.contentStartAudio s.supply (s.supply + 1) ::
             (Nova.recvRun { s with supply := s.supply + 2, prompt_name := s.supply, current_audio_content_name := some (s.supply + 1), user_speaking := true } es).2.1,
         (Nova.recvRun { s with supply := s.supply + 2, prompt_name := s.supply, current_audio_content_name := some (s.supply + 1), user_speaking := true } es).2.2) ∧
      s.supply ≠ s.prompt_name) := by
  constructor
  · intro s es h1 h2 h3 h4
    have hstep : Sonic.recvStep s Proto.InEvent.completionEnd =
        ({ s with supply := s.supply + 2, prompt_name := s.supply, current_audio_content_name := some (s.supply + 1) },
         [Proto.Event.promptStart s.supply (Proto.audioOutCfg s.voice_id),
          Proto.Event.contentStartAudio s.supply (s.supply + 1)], []) := by
      unfold Sonic.recvStep Sonic.start_audio_input Sonic.send_event
      simp [h1, h2, h3]
    refine ⟨?_, by omega⟩
    simp only [Sonic.recvRun, hstep]
    simp [h1]
  · intro s es h1 h2 h3 h4
    have hstep : Nova.recvStep s Proto.InEvent.completionEnd =
        ({ s with supply := s.supply + 2, prompt_name := s.supply, current_audio_content_name := some (s.supply + 1), user_speaking := true },
         [Proto.Event.promptStart s.supply (Proto.audioOutCfg s.voice_id),
          Proto.Event.contentStartAudio s.supply (s.supply + 1)], []) := by
      unfold Nova.recvStep Nova.start_audio_content Nova.send_event
      simp [h2, h3]
    refine ⟨?_, by omega⟩
    simp only [Nova.recvRun, hstep]
    simp [h1, h2]

/-- Witness for C4 at concrete sessions with one `completionEnd` event. -/
theorem C4_completion_rotation_witness :
    Sonic.recvRun ⟨"mathew", true, true, 0, some 1, true, 2⟩
        [Proto.InEvent.completionEnd] =
      (⟨"mathew", true, true, 2, some 3, true, 4⟩,
       [Proto.Event.promptStart 2 (Proto.audioOutCfg "mathew"),
        Proto.Event.contentStartAudio 2 3], []) ∧
    Nova.recvRun
        ⟨"mathew", "p", "sid", true, Nova.StreamingState.READY, 0, some 1, true, true, 2⟩
        [Proto.InEvent.completionEnd] =
      (⟨"mathew", "p", "sid", true, Nova.StreamingState.READY, 2, some 3, true, true, 4⟩,
       [Proto.Event.promptStart 2 (Proto.audioOutCfg "mathew"),
        Proto.Event.contentStartAudio 2 3], []) := by
  constructor
  · have h := (C4_completion_rotation.1 ⟨"mathew", true, true, 0, some 1, true, 2⟩ []
      rfl rfl rfl (by decide)).1
    simpa [Sonic.recvRun] using h
  · have h := (C4_completion_rotation.2
      ⟨"mathew", "p", "sid", true, Nova.StreamingState.READY, 0, some 1, true, true, 2⟩ []
      rfl rfl (by decide) (by decide)).1
    simpa [Nova.recvRun] using h

namespace Orch

theorem activeRelay_eq (s : St) (rid : Nat) (h : s.receive_task = some rid) :
    activeRelay s = if rid ∈ s.live then some rid else none := by
  unfold activeRelay
  rw [h]

theorem activeRelay_none_rt (s : St) (h : s.receive_task = none) :
    activeRelay s = none := by
  unfold activeRelay
  rw [h]

theorem activeRelay_audio (s : St) :
    activeRelay { s with audio_input_started := true } = activeRelay s := rfl

theorem active_some_live {s : St} (hinv : Inv s) {id : Nat}
    (h : activeRelay s = some id) : s.live = [id] := by
  obtain ⟨h1, h2, _⟩ := hinv
  rcases hrt : s.receive_task with _ | rid
  · rw [activeRelay_none_rt s hrt] at h
    cases h
  · rw [activeRelay_eq s rid hrt] at h
    by_cases hm : rid ∈ s.live
    · rw [if_pos hm] at h
      injection h with h
      rcases hl : s.live with _ | ⟨a, rest⟩
      · rw [hl] at hm
        cases hm
      · rw [hl] at hm h2
        have hrest : rest = [] := by
          simp only [List.length_cons] at h2
          exact List.length_eq_zero.mp (by omega)
        subst hrest
        have haa : rid = a := List.mem_singleton.mp hm
        rw [← h, haa]

    · rw [if_neg hm] at h
      cases h

theorem active_none_live {s : St} (hinv : Inv s)
    (h : activeRelay s = none) : s.live = [] := by
  obtain ⟨h1, _, _⟩ := hinv
  rcases hl : s.live with _ | ⟨a, rest⟩
  · rfl
  · exfalso
    have ha : s.receive_task = some a := h1 a (by rw [hl]; simp)
    rw [activeRelay_eq s a ha, if_pos (by rw [hl]; simp)] at h
    cases h

theorem active_audio {s : St} (hinv : Inv s) {id : Nat}
    (h : activeRelay s = some id) : s.audio_input_started = true :=
  hinv.2.2 (by rw [active_some_live hinv h]; simp)

theorem spawn_inv {s : St} (hinv : Inv s) (hnone : activeRelay s = none)
    (haudio : s.audio_input_started = true) : Inv (spawnRelay s).1 := by
  have hl := active_none_live hinv hnone
  unfold spawnRelay Inv
  refine ⟨?_, ?_, ?_⟩
  · intro id hid
    simp only [hl, List.nil_append, List.mem_singleton] at hid
    simp [hid]
  · simp [hl]
  · intro _
    simp [haudio]

theorem erase_inv {s : St} (hinv : Inv s) (id : Nat) :
    Inv { s with live := s.live.erase id } := by
  obtain ⟨h1, h2, h3⟩ := hinv
  unfold Inv
  refine ⟨?_, ?_, ?_⟩
  · intro j hj
    exact h1 j (List.mem_of_mem_erase hj)
  · calc (s.live.erase id).length ≤ s.live.length := List.length_erase_le _ _
      _ ≤ 1 := h2
  · intro hne
    apply h3
    intro hnil
    rw [hnil] at hne
    exact hne (List.erase_nil id)

theorem audio_inv {s : St} (hinv : Inv s) :
    Inv { s with audio_input_started := true } :=
  ⟨hinv.1, hinv.2.1, fun _ => rfl⟩

theorem step_inv {s : St} (hinv : Inv s) (e : Ev) : Inv (step s e).1 := by
  rcases e with _ | payload | _ | _ | id
  · simp only [step]
    by_cases h : (activeRelay { s with audio_input_started := true }).isNone
    · simp only [h, if_true]
      exact spawn_inv (audio_inv hinv) (Option.isNone_iff_eq_none.mp h) rfl
    · rw [if_neg h]
      exact audio_inv hinv
  · simp only [step]
    by_cases ha : s.audio_input_started = true
    · rw [if_neg (by simp [ha])]
      rcases hact : activeRelay s with _ | id
      · simp only [hact]
        by_cases hp : payload ≠ ""
        · rw [if_pos hp]
          exact hinv
        · rw [if_neg hp]
          exact hinv
      · simp only [hact]
        have hmid : Inv { receive_task := none, live := s.live.erase id, audio_input_started := s.audio_input_started, supply := s.supply } := by
          have hl := active_some_live hinv hact
          unfold Inv
          refine ⟨?_, ?_, ?_⟩
          · intro j hj
            rw [hl] at hj
            simp at hj
          · rw [hl]
            simp
          · intro _
            exact ha
        by_cases hp : payload ≠ ""
        · rw [if_pos hp]
          exact hmid
        · rw [if_neg hp]
          exact hmid
    · rw [if_pos (by simpa using ha)]
      exact hinv
  · simp only [step]
    by_cases ha : s.audio_input_started = true
    · rw [if_neg (by simp [ha])]
      by_cases h : (activeRelay s).isNone
      · simp only [h, if_true]
        exact spawn_inv hinv (Option.isNone_iff_eq_none.mp h) ha
      · rw [if_neg h]
        exact hinv
    · rw [if_pos (by simpa using ha)]
      exact hinv
  · simp only [step]
    exact hinv
  · simp only [step]
    exact erase_inv hinv id

theorem st0_inv : Inv st0 := by
  unfold Inv st0
  refine ⟨?_, by simp, by simp⟩
  intro id hid
  cases hid

theorem run_inv (es : List Ev) : ∀ {s : St}, Inv s → Inv (run s es).1 := by
  induction es with
  | nil => intro s hinv; exact hinv
  | cons e es ih =>
    intro s hinv
    have hcons : run s (e :: es) =
        ((run (step s e).1 es).1, (step s e).2 ++ (run (step s e).1 es).2) := by
      simp only [run]
    rw [hcons]
    exact ih (step_inv hinv e)

end Orch

/-- C1: when a `media` event arrives while a relay task is active, the
orchestrator first sends the `clear` control message to Twilio, then
cancels the relay task and awaits its completion, and only then forwards
the decoded frame to the model session; afterwards no relay task is live,
and along any event trace from the initial state at most one relay task is
ever live. -/
theorem C1_interruption :
    (∀ (s : Orch.St) (p : String) (id : Nat), Orch.Inv s →
      Orch.activeRelay s = some id →
      (Orch.step s (Orch.Ev.media p)).2 =
        Orch.Act.clearMsg :: Orch.Act.cancelRelay id :: Orch.Act.awaitRelay id ::
          (if p ≠ "" then [Orch.Act.forwardAudio (Codec.ulaw_b64_to_pcm16_bytes p)]
           else []) ∧
      (Orch.step s (Orch.Ev.media p)).1.live = []) ∧
    (∀ events : List Orch.Ev, (Orch.run Orch.st0 events).1.live.length ≤ 1) := by
  constructor
  · intro s p id hinv hact
    have ha : s.audio_input_started = true := Orch.active_audio hinv hact
    have hl := Orch.active_some_live hinv hact
    constructor
    · simp only [Orch.step, ha, hact]
      by_cases hp : p ≠ ""
      · simp [hp]
      · simp [hp]
    · simp only [Orch.step, ha, hact]
      by_cases hp : p ≠ ""
      · simp [hp, hl]
      · simp [hp, hl]
  · intro events
    exact (Orch.run_inv events Orch.st0_inv).2.1

/-- Witness for C1 at a concrete state with one active relay task. -/
theorem C1_interruption_witness :
    (Orch.step ⟨some 0, [0], true, 1⟩ (Orch.Ev.media "AAAA")).2 =
      [Orch.Act.clearMsg, Orch.Act.cancelRelay 0, Orch.Act.awaitRelay 0,
       Orch.Act.forwardAudio (Codec.ulaw_b64_to_pcm16_bytes "AAAA")] ∧
    (Orch.step ⟨some 0, [0], true, 1⟩ (Orch.Ev.media "AAAA")).1.live = [] := by
  have hinv : Orch.Inv ⟨some 0, [0], true, 1⟩ := by
    unfold Orch.Inv
    refine ⟨?_, by simp, fun _ => rfl⟩
    intro id hid
    simp at hid
    simp [hid]
  have h := C1_interruption.1 ⟨some 0, [0], true, 1⟩ "AAAA" 0 hinv rfl
  refine ⟨?_, h.2⟩
  rw [h.1]
  simp
